import Mathlib

/-!
Verification of the batched launch scheduler and per-worker execution/outcome
pipeline of `src/PoC.py`. Python strings are modelled as `List Char`,
the transport call (`subprocess.run` of curl) as a value of type
`TransportResult`, a fault raised inside the worker body as `Except.error`,
and JSON decoding/encoding as abstract `loads`/`dumps` capabilities.
The module-level scheduling loop is modelled as the list of observable
events it performs, with Python's `ZeroDivisionError` on `% 0` made
explicit through `Except`.
-/

namespace PoC

/-- Result of the transport call `subprocess.run(curl_command, ...)`
(PoC.py line 88): the exit code and the captured output streams. -/
structure TransportResult where
  returncode : Int
  stdout : List Char
  stderr : List Char
deriving DecidableEq

/-- The classified result of one worker, one constructor per print branch of
`make_request` (PoC.py lines 92, 94, 96, 98). -/
inductive Outcome where
  | success (parsedResponsePreview : List Char)
  | malformedResponse (rawPreview : List Char)
  | transportFailure (errorDetail : List Char)
  | runtimeFault (errorDetail : List Char)
deriving DecidableEq

/-- The curl invocation built inside `make_request` (PoC.py lines 82-86).
`thread_id` is the worker's argument; the command does not use it. -/
def curl_command (endpoint fileName : String) (_thread_id : Nat) : List String :=
  ["curl", "-k", "-s", "-X", "POST", endpoint,
   "-H", "Content-Type: application/json",
   "-d@" ++ fileName]

/-- Worker body `make_request` (PoC.py lines 79-98). `exec` is the outcome of
running the try-block up to and including the transport call: `Except.error e`
models a raised exception (caught by the outer `except Exception`, line 97),
`Except.ok result` the returned `subprocess.run` result. `loads` models
`json.loads` (`none` = `json.JSONDecodeError`), `dumps` models
`json.dumps ... indent=2`. Python slicing `[:n]` is `List.take n`. -/
def make_request {J : Type} (dumps : J → List Char) (loads : List Char → Option J)
    (exec : Except (List Char) TransportResult) : Outcome :=
  match exec with
  | Except.error e => Outcome.runtimeFault e
  | Except.ok result =>
    if result.returncode = 0 then
      match loads result.stdout with
      | some data => Outcome.success ((dumps data).take 400)
      | none => Outcome.malformedResponse (result.stdout.take 300)
    else
      Outcome.transportFailure result.stderr

/-- Observable events of the module-level code: the single payload write
(lines 70-76), thread start (line 105), the two sleeps (lines 110, 113),
the joins (lines 116-117) and the temp-file removal (line 120). -/
inductive Event where
  | writePayload
  | launch (i : Nat)
  | batchSleep
  | interSleep
  | join (i : Nat)
  | removeFile
deriving DecidableEq

/-- One iteration of the threading loop body (PoC.py lines 103-113) for
index `i`: start thread `i`; evaluate `(i + 1) % batch_size == 0`, which in
Python raises `ZeroDivisionError` when `batch_size = 0` (modelled as
`Except.error` carrying the events already performed); sleep `batch_delay`
when at a batch boundary; always sleep `delay`. -/
def loopIter (batch_size i : Nat) : Except (List Event) (List Event) :=
  if batch_size = 0 then
    Except.error [Event.launch i]
  else if (i + 1) % batch_size = 0 then
    Except.ok [Event.launch i, Event.batchSleep, Event.interSleep]
  else
    Except.ok [Event.launch i, Event.interSleep]

/-- The loop `for i in range(total)` (PoC.py lines 102-113): iterations run
in index order; an uncaught exception stops the loop, keeping the events
performed so far. -/
def threadLoop (batch_size : Nat) : Nat → Except (List Event) (List Event)
  | 0 => Except.ok []
  | n + 1 =>
    match threadLoop batch_size n with
    | Except.error evs => Except.error evs
    | Except.ok evs =>
      match loopIter batch_size n with
      | Except.error e => Except.error (evs ++ e)
      | Except.ok e => Except.ok (evs ++ e)

/-- Events of the whole run (PoC.py lines 70-121): write the payload file
once, run the threading loop, join every thread, remove the temp file.
An exception escaping the loop skips the joins and the removal. -/
def programTrace (total batch_size : Nat) : Except (List Event) (List Event) :=
  match threadLoop batch_size total with
  | Except.error evs => Except.error (Event.writePayload :: evs)
  | Except.ok evs =>
    Except.ok (Event.writePayload :: evs
      ++ (List.range total).map Event.join ++ [Event.removeFile])

/-- Modelled from the spec (section 4.2 BatchScheduler): for index i from 0
to total-1 in order, launch worker i, then pause for `batchDelay` iff
`(i + 1) mod batchSize = 0`, then always pause for `interLaunchDelay`.
Used as the spec-shaped reference schedule the code is compared against. -/
def scheduleSpec (batch_size : Nat) : Nat → List Event
  | 0 => []
  | n + 1 =>
    scheduleSpec batch_size n
      ++ (Event.launch n
        :: (if (n + 1) % batch_size = 0 then [Event.batchSleep] else [])
        ++ [Event.interSleep])

/-- The list of outcomes recorded by a run of `total` workers: worker `i`
runs `make_request` on its own execution result `execs i` and reports
exactly one `Outcome` (its single classification print). -/
def runOutcomes {J : Type} (dumps : J → List Char) (loads : List Char → Option J)
    (execs : Nat → Except (List Char) TransportResult) (total : Nat) : List Outcome :=
  (List.range total).map (fun i => make_request dumps loads (execs i))

/-- Content of the temp payload file as affected by one event: the single
`json.dump` (lines 71-75) fills it, `os.remove` (line 120) deletes it, and
no other event touches it. -/
def fileStep (payload : List Char) (st : Option (List Char)) : Event → Option (List Char)
  | Event.writePayload => some payload
  | Event.removeFile => none
  | _ => st

/-- The event list of a run, whether or not it ended in an exception. -/
def eventsOf (t : Except (List Event) (List Event)) : List Event :=
  match t with
  | Except.error evs => evs
  | Except.ok evs => evs

/-- Events the threading loop itself can perform (no payload write, no join,
no file removal). -/
def isLoopEvent : Event → Bool
  | Event.launch _ => true
  | Event.batchSleep => true
  | Event.interSleep => true
  | _ => false

/-- C1: over the transport result, the worker's classification is exhaustive
and mutually exclusive: `TransportFailure` (carrying the transport's stderr)
iff curl exits non-zero, `MalformedResponse` iff curl succeeds and JSON
decoding fails, `Success` iff curl succeeds and decoding succeeds. -/
theorem make_request_outcome_classification {J : Type} (dumps : J → List Char)
    (loads : List Char → Option J) (r : TransportResult) :
    ((∃ d, make_request dumps loads (Except.ok r) = Outcome.transportFailure d)
        ↔ r.returncode ≠ 0)
    ∧ ((∃ p, make_request dumps loads (Except.ok r) = Outcome.malformedResponse p)
        ↔ (r.returncode = 0 ∧ loads r.stdout = none))
    ∧ ((∃ p, make_request dumps loads (Except.ok r) = Outcome.success p)
        ↔ (r.returncode = 0 ∧ (loads r.stdout).isSome = true))
    ∧ (r.returncode ≠ 0 →
        make_request dumps loads (Except.ok r) = Outcome.transportFailure r.stderr) := by
  unfold make_request
  by_cases h : r.returncode = 0
  · cases hl : loads r.stdout <;> simp [h, hl]
  · simp [h]

/-- C1 witness: the classification instantiated at a concrete failing
transport result and a concrete decoder. -/
theorem make_request_outcome_classification_instance :
    ((∃ d, make_request (fun _ : Nat => ([] : List Char)) (fun _ => none)
        (Except.ok ⟨1, [], [Char.ofNat 101]⟩) = Outcome.transportFailure d)
        ↔ (TransportResult.mk 1 [] [Char.ofNat 101]).returncode ≠ 0)
    ∧ ((∃ p, make_request (fun _ : Nat => ([] : List Char)) (fun _ => none)
        (Except.ok ⟨1, [], [Char.ofNat 101]⟩) = Outcome.malformedResponse p)
        ↔ ((TransportResult.mk 1 [] [Char.ofNat 101]).returncode = 0
            ∧ (fun _ : List Char => (none : Option Nat))
                (TransportResult.mk 1 [] [Char.ofNat 101]).stdout = none))
    ∧ ((∃ p, make_request (fun _ : Nat => ([] : List Char)) (fun _ => none)
        (Except.ok ⟨1, [], [Char.ofNat 101]⟩) = Outcome.success p)
        ↔ ((TransportResult.mk 1 [] [Char.ofNat 101]).returncode = 0
            ∧ ((fun _ : List Char => (none : Option Nat))
                (TransportResult.mk 1 [] [Char.ofNat 101]).stdout).isSome = true))
    ∧ ((TransportResult.mk 1 [] [Char.ofNat 101]).returncode ≠ 0 →
        make_request (fun _ : Nat => ([] : List Char)) (fun _ => none)
          (Except.ok ⟨1, [], [Char.ofNat 101]⟩)
          = Outcome.transportFailure (TransportResult.mk 1 [] [Char.ofNat 101]).stderr) :=
  make_request_outcome_classification (fun _ : Nat => ([] : List Char)) (fun _ => none)
    (TransportResult.mk 1 [] [Char.ofNat 101])

/-- C2: the worker always returns exactly one of the four `Outcome` variants,
and a runtime fault raised during its execution is caught at the worker
boundary and converted into `RuntimeFault` carrying the fault's detail. -/
theorem make_request_total_and_fault_capture {J : Type} (dumps : J → List Char)
    (loads : List Char → Option J) :
    (∀ exec : Except (List Char) TransportResult,
      (∃ d, make_request dumps loads exec = Outcome.success d)
      ∨ (∃ d, make_request dumps loads exec = Outcome.malformedResponse d)
      ∨ (∃ d, make_request dumps loads exec = Outcome.transportFailure d)
      ∨ (∃ d, make_request dumps loads exec = Outcome.runtimeFault d))
    ∧ (∀ e, make_request dumps loads (Except.error e) = Outcome.runtimeFault e) := by
  constructor
  · intro exec
    cases exec with
    | error e => exact Or.inr (Or.inr (Or.inr ⟨e, rfl⟩))
    | ok r =>
      by_cases h : r.returncode = 0
      · cases hl : loads r.stdout with
        | some d => exact Or.inl ⟨(dumps d).take 400, by simp [make_request, h, hl]⟩
        | none => exact Or.inr (Or.inl ⟨r.stdout.take 300, by simp [make_request, h, hl]⟩)
      · exact Or.inr (Or.inr (Or.inl ⟨r.stderr, by simp [make_request, h]⟩))
  · intro e
    rfl

/-- C2 witness: totality and fault capture instantiated at a concrete
encoder/decoder pair. -/
theorem make_request_total_and_fault_capture_instance :
    (∀ exec : Except (List Char) TransportResult,
      (∃ d, make_request (fun n : Nat => List.replicate n (Char.ofNat 97)) (fun _ => some 1) exec
          = Outcome.success d)
      ∨ (∃ d, make_request (fun n : Nat => List.replicate n (Char.ofNat 97)) (fun _ => some 1) exec
          = Outcome.malformedResponse d)
      ∨ (∃ d, make_request (fun n : Nat => List.replicate n (Char.ofNat 97)) (fun _ => some 1) exec
          = Outcome.transportFailure d)
      ∨ (∃ d, make_request (fun n : Nat => List.replicate n (Char.ofNat 97)) (fun _ => some 1) exec
          = Outcome.runtimeFault d))
    ∧ (∀ e, make_request (fun n : Nat => List.replicate n (Char.ofNat 97)) (fun _ => some 1)
        (Except.error e) = Outcome.runtimeFault e) :=
  make_request_total_and_fault_capture (fun n : Nat => List.replicate n (Char.ofNat 97))
    (fun _ => some 1)

/-- C8: the observable outcome detail is bounded: a `Success` preview has at
most 400 characters of the decoded structure's re-serialization, and a
`MalformedResponse` preview has at most 300 characters of the raw body,
whatever the response body. -/
theorem outcome_previews_bounded {J : Type} (dumps : J → List Char)
    (loads : List Char → Option J) (exec : Except (List Char) TransportResult) :
    (∀ p, make_request dumps loads exec = Outcome.success p → p.length ≤ 400)
    ∧ (∀ p, make_request dumps loads exec = Outcome.malformedResponse p → p.length ≤ 300) := by
  constructor
  · intro p hp
    cases exec with
    | error e => simp [make_request] at hp
    | ok r =>
      by_cases h : r.returncode = 0
      · cases hl : loads r.stdout with
        | some d =>
          simp [make_request, h, hl] at hp
          simp [← hp, List.length_take]
        | none => simp [make_request, h, hl] at hp
      · simp [make_request, h] at hp
  · intro p hp
    cases exec with
    | error e => simp [make_request] at hp
    | ok r =>
      by_cases h : r.returncode = 0
      · cases hl : loads r.stdout with
        | some d => simp [make_request, h, hl] at hp
        | none =>
          simp [make_request, h, hl] at hp
          simp [← hp, List.length_take]
      · simp [make_request, h] at hp

/-- C8 witness: the bounds instantiated at a decoder that succeeds with a
long re-serialization on a long concrete body. -/
theorem outcome_previews_bounded_instance :
    (∀ p, make_request (fun n : Nat => List.replicate n (Char.ofNat 97)) (fun _ => some 1000)
        (Except.ok ⟨0, List.replicate 1000 (Char.ofNat 98), []⟩)
        = Outcome.success p → p.length ≤ 400)
    ∧ (∀ p, make_request (fun n : Nat => List.replicate n (Char.ofNat 97)) (fun _ => some 1000)
        (Except.ok ⟨0, List.replicate 1000 (Char.ofNat 98), []⟩)
        = Outcome.malformedResponse p → p.length ≤ 300) :=
  outcome_previews_bounded (fun n : Nat => List.replicate n (Char.ofNat 97)) (fun _ => some 1000)
    (Except.ok ⟨0, List.replicate 1000 (Char.ofNat 98), []⟩)

/-- C7: for the concrete plan total=10, batchSize=3, the scheduling loop
succeeds and its schedule places a batch pause immediately after launches
2, 5 and 8 and nowhere else, with exactly 3 batch pauses and 10
inter-launch pauses. -/
theorem concrete_plan_10_3_schedule :
    threadLoop 3 10 = Except.ok
      [Event.launch 0, Event.interSleep,
       Event.launch 1, Event.interSleep,
       Event.launch 2, Event.batchSleep, Event.interSleep,
       Event.launch 3, Event.interSleep,
       Event.launch 4, Event.interSleep,
       Event.launch 5, Event.batchSleep, Event.interSleep,
       Event.launch 6, Event.interSleep,
       Event.launch 7, Event.interSleep,
       Event.launch 8, Event.batchSleep, Event.interSleep,
       Event.launch 9, Event.interSleep]
    ∧ (eventsOf (threadLoop 3 10)).count Event.batchSleep = 3
    ∧ (eventsOf (threadLoop 3 10)).count Event.interSleep = 10 :=
  ⟨rfl, by decide, by decide⟩

/-- With a positive batch size, one loop iteration performs exactly the
spec-shaped event segment for its index. -/
theorem loopIter_ok (b i : Nat) (hb : b ≠ 0) :
    loopIter b i = Except.ok (Event.launch i
      :: (if (i + 1) % b = 0 then [Event.batchSleep] else []) ++ [Event.interSleep]) := by
  by_cases h1 : (i + 1) % b = 0 <;> simp [loopIter, hb, h1]

/-- With a positive batch size, the threading loop succeeds and performs
exactly the spec-shaped schedule. -/
theorem threadLoop_eq_spec (b : Nat) (hb : b ≠ 0) :
    ∀ total, threadLoop b total = Except.ok (scheduleSpec b total) := by
  intro total
  induction total with
  | zero => rfl
  | succ n ih => simp [threadLoop, scheduleSpec, ih, loopIter_ok b n hb]

/-- C3: for every plan with batchSize > 0, the loop performs, for each index
i in order, a launch, then a batch pause iff `(i+1) mod batchSize = 0`, then
always an inter-launch pause; when total is not a multiple of batchSize the
trailing partial batch ends with the inter-launch pause and no batch pause. -/
theorem threadLoop_matches_schedule_spec (total b : Nat) (hb : 0 < b) :
    threadLoop b total = Except.ok (scheduleSpec b total)
    ∧ (0 < total → total % b ≠ 0 →
        ∃ pre, scheduleSpec b total = pre ++ [Event.launch (total - 1), Event.interSleep]) := by
  refine ⟨threadLoop_eq_spec b hb.ne' total, ?_⟩
  intro ht hm
  obtain ⟨n, rfl⟩ : ∃ n, total = n + 1 := ⟨total - 1, (Nat.succ_pred_eq_of_pos ht).symm⟩
  exact ⟨scheduleSpec b n, by simp [scheduleSpec, hm]⟩

/-- C3 witness: the schedule shape at total=5, batchSize=3, whose last batch
is partial. -/
theorem threadLoop_matches_schedule_spec_instance :
    (0 : Nat) < 3
    ∧ (threadLoop 3 5 = Except.ok (scheduleSpec 3 5)
      ∧ ((0 : Nat) < 5 → 5 % 3 ≠ 0 →
          ∃ pre, scheduleSpec 3 5 = pre ++ [Event.launch (5 - 1), Event.interSleep])) :=
  ⟨by decide, threadLoop_matches_schedule_spec 5 3 (by decide)⟩

/-- With batch size 0, the loop raises on its first iteration: worker 0 is
started, then the batch-boundary check divides by zero. -/
theorem threadLoop_zero (total : Nat) (ht : 0 < total) :
    threadLoop 0 total = Except.error [Event.launch 0] := by
  induction total with
  | zero => exact absurd ht (lt_irrefl 0)
  | succ n ih =>
    cases Nat.eq_zero_or_pos n with
    | inl h => subst h; rfl
    | inr h => simp [threadLoop, ih h]

/-- C9: the program never validates batchSize > 0: with batch_size = 0 and at
least one worker, the run dies with an unhandled ZeroDivisionError at the
batch-boundary check of the very first iteration — after the payload write
and the spawn of worker 0, before any pacing sleep, join or file removal. -/
theorem batch_size_zero_raises (total : Nat) (ht : 0 < total) :
    programTrace total 0 = Except.error [Event.writePayload, Event.launch 0] := by
  simp [programTrace, threadLoop_zero total ht]

/-- C9 witness: the crash trace at three configured workers. -/
theorem batch_size_zero_raises_instance :
    (0 : Nat) < 3
    ∧ programTrace 3 0 = Except.error [Event.writePayload, Event.launch 0] :=
  ⟨by decide, batch_size_zero_raises 3 (by decide)⟩

/-- C10: when total is a positive exact multiple of batchSize, the scheduler
still sleeps for the batch delay (then the inter-launch delay) after
launching the final worker, before any join and before the file removal. -/
theorem full_final_batch_trailing_delay (total b : Nat) (hb : 0 < b) (ht : 0 < total)
    (hm : total % b = 0) :
    ∃ pre, programTrace total b = Except.ok (Event.writePayload :: pre
      ++ [Event.launch (total - 1), Event.batchSleep, Event.interSleep]
      ++ (List.range total).map Event.join ++ [Event.removeFile]) := by
  obtain ⟨n, rfl⟩ : ∃ n, total = n + 1 := ⟨total - 1, (Nat.succ_pred_eq_of_pos ht).symm⟩
  refine ⟨scheduleSpec b n, ?_⟩
  simp [programTrace, threadLoop_eq_spec b hb.ne', scheduleSpec, hm]

/-- C10 witness: the trailing batch delay at total=3, batchSize=3. -/
theorem full_final_batch_trailing_delay_instance :
    (0 : Nat) < 3 ∧ 3 % 3 = 0
    ∧ ∃ pre, programTrace 3 3 = Except.ok (Event.writePayload :: pre
      ++ [Event.launch (3 - 1), Event.batchSleep, Event.interSleep]
      ++ (List.range 3).map Event.join ++ [Event.removeFile]) :=
  ⟨by decide, by decide, full_final_batch_trailing_delay 3 3 (by decide) (by decide) (by decide)⟩

/-- Each index below total is launched exactly once by the schedule, and no
other index is ever launched. -/
theorem scheduleSpec_count_launch (b total i : Nat) :
    (scheduleSpec b total).count (Event.launch i) = if i < total then 1 else 0 := by
  induction total with
  | zero => simp [scheduleSpec]
  | succ n ih =>
    rw [scheduleSpec, List.count_append, ih]
    have h2 : (Event.launch n
        :: (if (n + 1) % b = 0 then [Event.batchSleep] else [])
        ++ [Event.interSleep]).count (Event.launch i) = if i = n then 1 else 0 := by
      by_cases hbnd : (n + 1) % b = 0 <;> by_cases hin : i = n <;>
        simp [hbnd, hin, List.count_cons, List.count_append]
    rw [h2]
    split_ifs <;> omega

/-- C4: for every valid plan (batchSize > 0) and every total N ≥ 0, the loop
launches each worker index 0..N-1 exactly once and never launches any other
index, and the run records exactly one Outcome per dispatched worker: N
outcomes in total, whatever each worker's execution result is. -/
theorem one_outcome_per_task {J : Type} (dumps : J → List Char)
    (loads : List Char → Option J) (execs : Nat → Except (List Char) TransportResult)
    (total b : Nat) (hb : 0 < b) :
    threadLoop b total = Except.ok (scheduleSpec b total)
    ∧ (∀ i : Nat, (scheduleSpec b total).count (Event.launch i) = if i < total then 1 else 0)
    ∧ (runOutcomes dumps loads execs total).length = total :=
  ⟨threadLoop_eq_spec b hb.ne' total,
   fun i => scheduleSpec_count_launch b total i,
   by simp [runOutcomes]⟩

/-- C4 witness: exactly-once launches and one outcome per worker at total=4,
batchSize=2, with a concrete mix of execution results. -/
theorem one_outcome_per_task_instance :
    (0 : Nat) < 2
    ∧ (threadLoop 2 4 = Except.ok (scheduleSpec 2 4)
      ∧ (∀ i : Nat, (scheduleSpec 2 4).count (Event.launch i) = if i < 4 then 1 else 0)
      ∧ (runOutcomes (fun n : Nat => List.replicate n (Char.ofNat 97)) (fun _ => some 2)
          (fun i => if i = 0 then Except.error [] else Except.ok ⟨0, [], []⟩) 4).length = 4) :=
  ⟨by decide,
   one_outcome_per_task (fun n : Nat => List.replicate n (Char.ofNat 97)) (fun _ => some 2)
     (fun i => if i = 0 then Except.error [] else Except.ok ⟨0, [], []⟩) 4 2 (by decide)⟩

/-- Every event one loop iteration performs is a loop event. -/
theorem loopIter_events (b i : Nat) :
    ∀ e ∈ eventsOf (loopIter b i), isLoopEvent e = true := by
  intro e he
  by_cases h0 : b = 0
  · simp [loopIter, eventsOf, h0] at he
    subst he
    rfl
  · by_cases h1 : (i + 1) % b = 0
    · simp [loopIter, eventsOf, h0, h1] at he
      rcases he with rfl | rfl | rfl <;> rfl
    · simp [loopIter, eventsOf, h0, h1] at he
      rcases he with rfl | rfl <;> rfl

/-- Every event the threading loop performs — whether it finishes or dies on
the zero-division — is a loop event: no payload write, join or removal. -/
theorem threadLoop_events (b total : Nat) :
    ∀ e ∈ eventsOf (threadLoop b total), isLoopEvent e = true := by
  induction total with
  | zero =>
    intro e he
    simp [threadLoop, eventsOf] at he
  | succ n ih =>
    intro e he
    rw [threadLoop] at he
    cases htl : threadLoop b n with
    | error evs =>
      rw [htl] at he
      simp only [eventsOf] at he
      exact ih e (by rw [htl]; simpa [eventsOf] using he)
    | ok evs =>
      rw [htl] at he
      cases hli : loopIter b n with
      | error l2 =>
        rw [hli] at he
        simp only [eventsOf, List.mem_append] at he
        rcases he with h | h
        · exact ih e (by rw [htl]; simpa [eventsOf] using h)
        · exact loopIter_events b n e (by rw [hli]; simpa [eventsOf] using h)
      | ok l2 =>
        rw [hli] at he
        simp only [eventsOf, List.mem_append] at he
        rcases he with h | h
        · exact ih e (by rw [htl]; simpa [eventsOf] using h)
        · exact loopIter_events b n e (by rw [hli]; simpa [eventsOf] using h)

/-- A list of loop events never writes the payload. -/
theorem writePayload_not_loop (l : List Event) (h : ∀ e ∈ l, isLoopEvent e = true) :
    Event.writePayload ∉ l := by
  intro hm
  simpa [isLoopEvent] using h _ hm

/-- A list of loop events never removes the temp file. -/
theorem removeFile_not_loop (l : List Event) (h : ∀ e ∈ l, isLoopEvent e = true) :
    Event.removeFile ∉ l := by
  intro hm
  simpa [isLoopEvent] using h _ hm

/-- Folding the file content over events that never remove the file keeps
the payload in place. -/
theorem foldl_fileStep_keep (payload : List Char) :
    ∀ q : List Event, Event.removeFile ∉ q →
      List.foldl (fileStep payload) (some payload) q = some payload := by
  intro q
  induction q with
  | nil => intro _; rfl
  | cons e rest ih =>
    intro h
    have he : e ≠ Event.removeFile := fun hr => h (hr ▸ List.mem_cons_self e rest)
    have hstep : fileStep payload (some payload) e = some payload := by
      cases e
      case removeFile => exact absurd rfl he
      all_goals rfl
    rw [List.foldl_cons, hstep]
    exact ih (fun hm => h (List.mem_cons_of_mem e hm))

/-- C5: the payload is built and serialized exactly once per run, whatever
the worker count and batch size — even a run dying on the zero-division
wrote it exactly once; every worker's curl command is identical (it reads
the same temp file, independent of the thread id); and at the point any
worker is launched, the temp file still holds the payload bytes written at
the start, so all workers read identical content. -/
theorem payload_built_once_and_shared (total b : Nat) (endpoint fileName : String)
    (payload : List Char) :
    (eventsOf (programTrace total b)).count Event.writePayload = 1
    ∧ (∀ i j : Nat, curl_command endpoint fileName i = curl_command endpoint fileName j)
    ∧ (∀ (pre post : List Event) (i : Nat) (evs : List Event),
        programTrace total b = Except.ok evs →
        evs = pre ++ Event.launch i :: post →
        List.foldl (fileStep payload) none pre = some payload) := by
  refine ⟨?_, fun i j => rfl, ?_⟩
  · cases htl : threadLoop b total with
    | error evs =>
      have h0 : evs.count Event.writePayload = 0 :=
        List.count_eq_zero.mpr (writePayload_not_loop evs
          (by intro e he; exact threadLoop_events b total e (by rw [htl]; exact he)))
      simp [programTrace, htl, eventsOf, List.count_cons, h0]
    | ok evs =>
      have h0 : evs.count Event.writePayload = 0 :=
        List.count_eq_zero.mpr (writePayload_not_loop evs
          (by intro e he; exact threadLoop_events b total e (by rw [htl]; exact he)))
      have hj : ((List.range total).map Event.join).count Event.writePayload = 0 :=
        List.count_eq_zero.mpr (by simp)
      simp [programTrace, htl, eventsOf, List.count_cons, List.count_append, h0, hj]
  · intro pre post i evs hok hsplit
    cases htl : threadLoop b total with
    | error l =>
      rw [programTrace, htl] at hok
      exact absurd hok (by simp)
    | ok l =>
      rw [programTrace, htl] at hok
      have hevs : evs = Event.writePayload :: l
          ++ (List.range total).map Event.join ++ [Event.removeFile] := by
        simpa using hok.symm
      cases pre with
      | nil =>
        rw [hevs] at hsplit
        simp at hsplit
      | cons p0 q =>
        rw [hevs, List.cons_append] at hsplit
        injection hsplit with h1 h2
        subst h1
        have hnr : Event.removeFile ∉ q := by
          have h2a : q ++ Event.launch i :: post
              = (l ++ (List.range total).map Event.join) ++ [Event.removeFile] := h2.symm
          have hpre1 : q <+: (l ++ (List.range total).map Event.join) ++ [Event.removeFile] :=
            ⟨Event.launch i :: post, h2a⟩
          have hlen : q.length ≤ (l ++ (List.range total).map Event.join).length := by
            have hc := congrArg List.length h2a
            simp [List.length_append] at hc ⊢
            omega
          have hqpre : q <+: l ++ (List.range total).map Event.join :=
            List.prefix_of_prefix_length_le hpre1 (List.prefix_append _ _) hlen
          intro hm
          have hm2 := hqpre.subset hm
          rcases List.mem_append.mp hm2 with h | h
          · exact removeFile_not_loop l
              (by intro e he; exact threadLoop_events b total e (by rw [htl]; exact he)) h
          · simp at h
        rw [List.foldl_cons]
        exact foldl_fileStep_keep payload q hnr

/-- C5 witness: the single payload write, identical curl commands and the
content seen at worker 0's launch, at total=1, batchSize=1. -/
theorem payload_built_once_and_shared_instance :
    (eventsOf (programTrace 1 1)).count Event.writePayload = 1
    ∧ (∀ i j : Nat, curl_command ("https://h/api/graphql") ("/tmp/p.json") i
        = curl_command ("https://h/api/graphql") ("/tmp/p.json") j)
    ∧ (∀ (pre post : List Event) (i : Nat) (evs : List Event),
        programTrace 1 1 = Except.ok evs →
        evs = pre ++ Event.launch i :: post →
        List.foldl (fileStep [Char.ofNat 46]) none pre = some [Char.ofNat 46]) :=
  payload_built_once_and_shared 1 1 ("https://h/api/graphql") ("/tmp/p.json") [Char.ofNat 46]

/-- C6: on every normal completion (batchSize > 0) the run's trace is the
payload write, the schedule, one join per worker, then the temp-file
removal as the very last event; the removal never occurs before or among
the joins, so the backing storage is released only after every worker has
completed. -/
theorem temp_file_removed_after_joins (total b : Nat) (hb : 0 < b) :
    programTrace total b = Except.ok (Event.writePayload :: scheduleSpec b total
      ++ (List.range total).map Event.join ++ [Event.removeFile])
    ∧ Event.removeFile ∉ (Event.writePayload :: scheduleSpec b total
      ++ (List.range total).map Event.join) := by
  constructor
  · simp [programTrace, threadLoop_eq_spec b hb.ne' total]
  · intro hm
    rcases List.mem_cons.mp hm with h | h
    · exact absurd h.symm (by simp)
    · rcases List.mem_append.mp h with h | h
      · exact removeFile_not_loop (scheduleSpec b total)
          (by intro e he
              exact threadLoop_events b total e
                (by rw [threadLoop_eq_spec b hb.ne' total]; exact he)) h
      · simp at h

/-- C6 witness: the full trace shape at total=2, batchSize=2. -/
theorem temp_file_removed_after_joins_instance :
    (0 : Nat) < 2
    ∧ (programTrace 2 2 = Except.ok (Event.writePayload :: scheduleSpec 2 2
        ++ (List.range 2).map Event.join ++ [Event.removeFile])
      ∧ Event.removeFile ∉ (Event.writePayload :: scheduleSpec 2 2
        ++ (List.range 2).map Event.join)) :=
  ⟨by decide, temp_file_removed_after_joins 2 2 (by decide)⟩

end PoC
